import Mathlib

/-!
Shallow embedding of `src/main.py` (class `CSVToMongoDBLoader`): file
discovery (`read_csv_files`), row normalization
(`prepare_data_for_mongodb`), batched loading (`load_data_to_mongodb`)
and index provisioning (`create_indexes`).

External effects (directory listing, CSV parsing, the MongoDB driver,
the wall clock) are supplied by an explicit environment record; Python
scalar values are modelled by `PyVal` and Python exceptions by `PyExc`.
Finite floats are modelled as rationals: the claims under study only
depend on coercion success/failure, on NaN/infinity propagation and on
counts, never on rounding.
-/

/-- Python scalar values as they occur in a dataframe row produced by
`pd.read_csv` and mutated by `prepare_data_for_mongodb`: strings,
finite floats (as rationals), signed infinities, NaN, ints, parsed
timestamps and `None`. -/
inductive PyVal where
  | str (s : String)
  | num (q : ℚ)
  | inf (pos : Bool)
  | nan
  | int (n : ℤ)
  | timestamp (t : ℤ)
  | none
  deriving DecidableEq

/-- The Python exception classes distinguished by the source:
`float`/`int` raise `ValueError`/`TypeError`/`OverflowError`, and any
other exception (driver errors and the like) is `otherError`. -/
inductive PyExc where
  | valueError
  | typeError
  | overflowError
  | otherError
  deriving DecidableEq

deriving instance DecidableEq for Except

/-- `pd.notna`: `False` exactly on `None` and float NaN. -/
def pd_notna : PyVal → Bool
  | PyVal.none => false
  | PyVal.nan => false
  | _ => true

/-- Characters stripped by Python's `float`/`int` string conversion. -/
def isSpaceChar (c : Char) : Bool :=
  c == ' ' || c == '\t' || c == '\n' || c == '\r' || c == '\x0b' || c == '\x0c'

/-- Strip leading and trailing whitespace from a character list. -/
def pyStrip (l : List Char) : List Char :=
  ((l.dropWhile isSpaceChar).reverse.dropWhile isSpaceChar).reverse

/-- ASCII lower-casing, as used to compare against `inf`/`nan` spellings. -/
def lowerChar (c : Char) : Char :=
  if 65 ≤ c.toNat ∧ c.toNat ≤ 90 then Char.ofNat (c.toNat + 32) else c

/-- Numeric value of a digit string (most significant first). -/
def natOfDigits (l : List Char) : ℕ :=
  l.foldl (fun a c => 10 * a + (c.toNat - 48)) 0

/-- All characters are ASCII digits. -/
def allDigits (l : List Char) : Bool :=
  l.all Char.isDigit

/-- Split a character list at the first occurrence of `c`; `none` if
`c` does not occur. -/
def splitAtChar (c : Char) : List Char → Option (List Char × List Char)
  | [] => Option.none
  | x :: xs =>
    if x = c then some ([], xs)
    else (splitAtChar c xs).map (fun p => (x :: p.1, p.2))

/-- Mantissa of a Python float literal: digits with an optional decimal
point, at least one digit overall (`"1"`, `"1."`, `".5"`, `"1.5"`).
Returns the digit value together with the number of fractional digits. -/
def splitMantissa (l : List Char) : Option (ℕ × ℕ) :=
  match splitAtChar '.' l with
  | Option.none =>
    if l ≠ [] ∧ allDigits l then some (natOfDigits l, 0) else Option.none
  | some (ip, fp) =>
    if (ip ≠ [] ∨ fp ≠ []) ∧ allDigits ip ∧ allDigits fp then
      some (natOfDigits (ip ++ fp), fp.length)
    else Option.none

/-- Exponent of a Python float literal: optional sign, nonempty digits. -/
def parseExp (l : List Char) : Option ℤ :=
  match l with
  | '-' :: r => if r ≠ [] ∧ allDigits r then some (-(natOfDigits r : ℤ)) else Option.none
  | '+' :: r => if r ≠ [] ∧ allDigits r then some ((natOfDigits r : ℤ)) else Option.none
  | r => if r ≠ [] ∧ allDigits r then some ((natOfDigits r : ℤ)) else Option.none

/-- Magnitude part of a Python float literal (sign already removed,
already lower-cased): mantissa with optional `e`-exponent, assembled as
an explicit fraction. -/
def parseFloatMagnitude (l : List Char) : Option ℚ :=
  match splitAtChar 'e' l with
  | Option.none => (splitMantissa l).map (fun p => mkRat p.1 (10 ^ p.2))
  | some (m, ex) =>
    match splitMantissa m, parseExp ex with
    | some (n, k), some e =>
      if 0 ≤ e then some (mkRat ((n : ℤ) * 10 ^ e.toNat) (10 ^ k))
      else some (mkRat (n : ℤ) (10 ^ (k + (-e).toNat)))
    | _, _ => Option.none

/-- Python's `float(s)` on a string: strip whitespace, optional sign,
then `inf`/`infinity`/`nan` (case-insensitive) or a decimal literal.
`none` models a `ValueError`. -/
def pyParseFloat (s : String) : Option PyVal :=
  let t := pyStrip s.toList
  let (sgn, rest) :=
    match t with
    | '-' :: r => (false, r)
    | '+' :: r => (true, r)
    | r => (true, r)
  let low := rest.map lowerChar
  if low = ['i', 'n', 'f'] ∨ low = ['i', 'n', 'f', 'i', 'n', 'i', 't', 'y'] then
    some (PyVal.inf sgn)
  else if low = ['n', 'a', 'n'] then some PyVal.nan
  else
    match parseFloatMagnitude low with
    | some q => some (PyVal.num (if sgn then q else -q))
    | Option.none => Option.none

/-- Python's `int(s)` on a string: strip whitespace, optional sign,
nonempty digits; `none` models a `ValueError`. -/
def pyParseInt (s : String) : Option ℤ :=
  let t := pyStrip s.toList
  let (sgn, rest) :=
    match t with
    | '-' :: r => (false, r)
    | '+' :: r => (true, r)
    | r => (true, r)
  if rest ≠ [] ∧ allDigits rest then
    some (if sgn then (natOfDigits rest : ℤ) else -(natOfDigits rest : ℤ))
  else Option.none

/-- Truncation toward zero, the behaviour of Python's `int` on a finite
float. -/
def ratTrunc (q : ℚ) : ℤ :=
  if 0 ≤ q then ⌊q⌋ else ⌈q⌉

/-- Python's builtin `float(v)`: identity on floats, exact on ints,
literal parsing on strings (`ValueError` on failure), `TypeError` on
`None` and on timestamps. -/
def pyFloat : PyVal → Except PyExc PyVal
  | PyVal.str s =>
    match pyParseFloat s with
    | some v => Except.ok v
    | Option.none => Except.error PyExc.valueError
  | PyVal.num q => Except.ok (PyVal.num q)
  | PyVal.inf b => Except.ok (PyVal.inf b)
  | PyVal.nan => Except.ok PyVal.nan
  | PyVal.int n => Except.ok (PyVal.num (n : ℚ))
  | PyVal.timestamp _ => Except.error PyExc.typeError
  | PyVal.none => Except.error PyExc.typeError

/-- Python's builtin `int(v)`: truncation on finite floats,
`OverflowError` on infinities, `ValueError` on NaN and unparsable
strings, `TypeError` on `None` and timestamps. -/
def pyInt : PyVal → Except PyExc PyVal
  | PyVal.num q => Except.ok (PyVal.int (ratTrunc q))
  | PyVal.inf _ => Except.error PyExc.overflowError
  | PyVal.nan => Except.error PyExc.valueError
  | PyVal.int n => Except.ok (PyVal.int n)
  | PyVal.str s =>
    match pyParseInt s with
    | some n => Except.ok (PyVal.int n)
    | Option.none => Except.error PyExc.valueError
  | PyVal.timestamp _ => Except.error PyExc.typeError
  | PyVal.none => Except.error PyExc.typeError

/-- A dataframe row after `df.to_dict('records')`: an association list
from column name to scalar value. -/
abbrev Record := List (String × PyVal)

/-- Dictionary lookup (`field in record` / `record[field]`). -/
def getField : Record → String → Option PyVal
  | [], _ => Option.none
  | (g, w) :: r, f => if g = f then some w else getField r f

/-- Dictionary assignment `record[field] = v` for a key already
present: rewrite every binding of that key. -/
def setField : Record → String → PyVal → Record
  | [], _, _ => []
  | (g, w) :: r, f, v =>
    if g = f then (f, v) :: setField r f v else (g, w) :: setField r f v

/-- Dataframe column assignment `df[col] = v`: overwrite the column if
present, otherwise append it. -/
def setCol (r : Record) (f : String) (v : PyVal) : Record :=
  if (getField r f).isSome then setField r f v else r ++ [(f, v)]

/-- The designated numeric fields of `prepare_data_for_mongodb`. -/
def numeric_fields : List String :=
  ["Open", "High", "Low", "Close", "Volume", "Quote asset volume",
   "Number of trades", "Taker buy base asset volume",
   "Taker buy quote asset volume", "Ignore"]

/-- One iteration of the numeric-field loop: if the field is present
and not NA, `record[field] = float(record[field])`, with `ValueError`
and `TypeError` caught and turned into `None`; any other exception
propagates (none can actually arise from `float`). -/
def coerce_numeric_field (r : Record) (f : String) : Except PyExc Record :=
  match getField r f with
  | Option.none => Except.ok r
  | some v =>
    if pd_notna v then
      match pyFloat v with
      | Except.ok v' => Except.ok (setField r f v')
      | Except.error PyExc.valueError => Except.ok (setField r f PyVal.none)
      | Except.error PyExc.typeError => Except.ok (setField r f PyVal.none)
      | Except.error e => Except.error e
    else Except.ok r

/-- The `for field in numeric_fields` loop. -/
def coerceLoop : List String → Record → Except PyExc Record
  | [], r => Except.ok r
  | f :: fs, r =>
    match coerce_numeric_field r f with
    | Except.ok r' => coerceLoop fs r'
    | Except.error e => Except.error e

/-- The secondary `int` coercion of `Number of trades`: if present and
not NA, `record[f] = int(record[f])`, catching only `ValueError` and
`TypeError` (set to `None`); an `OverflowError` propagates. -/
def trades_to_int (r : Record) : Except PyExc Record :=
  match getField r "Number of trades" with
  | Option.none => Except.ok r
  | some v =>
    if pd_notna v then
      match pyInt v with
      | Except.ok v' => Except.ok (setField r "Number of trades" v')
      | Except.error PyExc.valueError =>
        Except.ok (setField r "Number of trades" PyVal.none)
      | Except.error PyExc.typeError =>
        Except.ok (setField r "Number of trades" PyVal.none)
      | Except.error e => Except.error e
    else Except.ok r

/-- The per-record body of `prepare_data_for_mongodb`: the numeric
loop followed by the `Number of trades` integer coercion. -/
def coerceRecord (r : Record) : Except PyExc Record :=
  match coerceLoop numeric_fields r with
  | Except.ok r' => trades_to_int r'
  | Except.error e => Except.error e

/-- The `for record in records` loop of `prepare_data_for_mongodb`:
records are processed in order and the first uncaught exception aborts
the whole call. -/
def prepareLoop : List Record → Except PyExc (List Record)
  | [] => Except.ok []
  | r :: rs =>
    match coerceRecord r with
    | Except.error e => Except.error e
    | Except.ok r' =>
      match prepareLoop rs with
      | Except.error e => Except.error e
      | Except.ok rs' => Except.ok (r' :: rs')

/-- `prepare_data_for_mongodb(df)` on `df.to_dict('records')`. -/
def prepare_data_for_mongodb (records : List Record) : Except PyExc (List Record) :=
  prepareLoop records

/-- Whether a value is of Python type `float` (finite, infinite or NaN). -/
def isFloatValue : PyVal → Bool
  | PyVal.num _ => true
  | PyVal.inf _ => true
  | PyVal.nan => true
  | _ => false

/-- `file.endswith(suffix)`. -/
def endswith (s suffix : String) : Bool :=
  suffix.toList.isSuffixOf s.toList

/-- `os.path.join(dir, file)` for the relative paths the loader uses. -/
def path_join (dir file : String) : String :=
  if dir = "" then file
  else if endswith dir "/" then dir ++ file else dir ++ "/" ++ file

/-- `os.path.basename(p)`: everything after the last separator. -/
def basename (p : String) : String :=
  String.mk ((p.toList.reverse.takeWhile (fun c => c ≠ '/')).reverse)

/-- The filter loop of `read_csv_files`: walk `os.listdir` output in
order and append `os.path.join(csv_directory, file)` for every entry
ending in `.csv`. -/
def collectCsvFiles (csvDir : String) (listing : List String) : List String :=
  listing.foldl
    (fun acc file =>
      if endswith file ".csv" then acc ++ [path_join csvDir file] else acc) []

/-- Outcome of one `collection.insert_many(batch, ordered=False)` call:
full success with the driver's count of inserted ids, a
`BulkWriteError` carrying `len(e.details['writeErrors'])`, or any
other exception. -/
inductive InsertOutcome where
  | ok (insertedCount : ℕ)
  | bulkWriteError (errorCount : ℕ)
  | otherError
  deriving DecidableEq

/-- Environment of `create_indexes`: the document returned by the k-th
`next(self.collection.find().limit(1), {})` call (its key set; `[]`
for an empty collection), and whether the k-th sampling call or the
`create_index` call for a given field raises. -/
structure IndexEnv where
  sample : ℕ → List String
  findRaises : ℕ → Bool
  createRaises : String → Bool

/-- The three `if field in sample: create_index(field)` blocks of
`create_indexes`, paired with the index of the sampling call each one
performs. -/
def index_fields : List (ℕ × String) :=
  [(0, "Open time"), (1, "Close time"), (2, "source_file")]

/-- Body of `create_indexes`: each block samples the collection anew;
any exception aborts the remaining blocks but is caught by the
enclosing `except`, so the indexes created so far persist and nothing
propagates to the caller. -/
def create_indexes_go (env : IndexEnv) : List (ℕ × String) → List String → List String
  | [], created => created
  | (k, f) :: rest, created =>
    if env.findRaises k then created
    else if f ∈ env.sample k then
      if env.createRaises f then created
      else create_indexes_go env rest (created ++ [f])
    else create_indexes_go env rest created

/-- `create_indexes()`: returns the list of fields an ascending index
was created on (the observable store effect). -/
def create_indexes (env : IndexEnv) : List String :=
  create_indexes_go env index_fields []

/-- Modelled from the spec (section 4.5), for comparison with the
code: "sample one arbitrary persisted document; for each of the three
recognized fields present in that sample, create an ascending index" —
a single sampling call whose result drives all three decisions. -/
def create_indexes_spec (env : IndexEnv) : List String :=
  (index_fields.map Prod.snd).filter (fun f => f ∈ env.sample 0)

/-- Environment of one `load_data_to_mongodb` run: the connection
outcome, the `os.listdir` outcome, the `pd.read_csv` outcome per path,
the k-th `datetime.now()` value, the k-th `insert_many` outcome, and
the `create_indexes` environment. -/
structure LoadEnv where
  connectOk : Bool
  listing : Except Unit (List String)
  parse : String → Except Unit (List Record)
  nowAt : ℕ → ℤ
  insertAt : ℕ → InsertOutcome
  idx : IndexEnv

/-- Tag a parsed row with `df['source_file'] = os.path.basename(path)`
and `df['import_timestamp'] = now`. -/
def stamp_record (path : String) (t : ℤ) (r : Record) : Record :=
  setCol (setCol r "source_file" (PyVal.str (basename path)))
    "import_timestamp" (PyVal.timestamp t)

/-- The per-file loop of `read_csv_files`, threading the number of
`datetime.now()` calls made so far (one per successfully parsed file);
a file whose parse raises is logged and skipped. -/
def read_loop (env : LoadEnv) : List String → ℕ → List (List Record)
  | [], _ => []
  | path :: rest, k =>
    match env.parse path with
    | Except.error _ => read_loop env rest k
    | Except.ok rows =>
      rows.map (stamp_record path (env.nowAt k)) :: read_loop env rest (k + 1)

/-- `read_csv_files(csv_directory)`: a failed directory listing is
caught and degrades to the empty result; otherwise each discovered
`.csv` file is parsed, stamped with provenance columns, and collected
in listing order. -/
def read_csv_files (env : LoadEnv) (csvDir : String) : List (List Record) :=
  match env.listing with
  | Except.error _ => []
  | Except.ok files => read_loop env (collectCsvFiles csvDir files) 0

/-- Fuel-driven worker for `chunks`: as long as records remain, emit
the slice `records[j : j + bs]` and advance `j` by `bs`.  For a
positive `bs` the fuel `l.length` never runs out. -/
def chunksGo (bs : ℕ) : ℕ → List Record → List (List Record)
  | 0, _ => []
  | _ + 1, [] => []
  | fuel + 1, x :: xs => (x :: xs).take bs :: chunksGo bs fuel ((x :: xs).drop bs)

/-- The slices `records[j : j + batch_size]` for
`j in range(0, len(records), batch_size)`, for a positive step. -/
def chunks (bs : ℕ) (l : List Record) : List (List Record) :=
  chunksGo bs l.length l

/-- The batch-insertion loop: on success add
`len(result.inserted_ids)`, on `BulkWriteError` add
`len(batch) - error_count` and keep going, and let any other exception
propagate out of the loop.  `ins` counts `insert_many` calls made so
far. -/
def insertLoop (env : LoadEnv) : ℕ → List (List Record) → ℤ → Except PyExc (ℤ × ℕ)
  | ins, [], total => Except.ok (total, ins)
  | ins, b :: rest, total =>
    match env.insertAt ins with
    | InsertOutcome.ok n => insertLoop env (ins + 1) rest (total + (n : ℤ))
    | InsertOutcome.bulkWriteError e =>
      insertLoop env (ins + 1) rest (total + ((b.length : ℤ) - (e : ℤ)))
    | InsertOutcome.otherError => Except.error PyExc.otherError

/-- The per-dataframe loop of `load_data_to_mongodb`: normalize, then
insert in batches.  `range(0, len(records), 0)` raises a `ValueError`,
mirroring Python's zero-step `range`. -/
def loadLoop (env : LoadEnv) (bs : ℕ) : List (List Record) → ℤ → ℕ → Except PyExc ℤ
  | [], total, _ => Except.ok total
  | df :: rest, total, ins =>
    match prepare_data_for_mongodb df with
    | Except.error e => Except.error e
    | Except.ok records =>
      if bs = 0 then Except.error PyExc.valueError
      else
        match insertLoop env ins (chunks bs records) total with
        | Except.error e => Except.error e
        | Except.ok (total', ins') => loadLoop env bs rest total' ins'

/-- Observable outcome of `load_data_to_mongodb`: the returned boolean,
the accumulated record count it logged (0 on the failure paths, where
it is never logged), whether `disconnect()` ran, and the indexes
created. -/
structure LoadResult where
  success : Bool
  totalRecords : ℤ
  disconnectCalled : Bool
  indexes : List String
  deriving DecidableEq

/-- `load_data_to_mongodb(csv_directory, batch_size)`: fail fast if the
connection fails (before the `try/finally`, so without disconnecting);
fail if no dataframe was read; run the load loop with every exception
caught by the enclosing `except` (returning `False`); on completion
create indexes and return `True`.  The `finally` block always runs once
the `try` was entered. -/
def load_data_to_mongodb (env : LoadEnv) (csvDir : String) (bs : ℕ) : LoadResult :=
  if env.connectOk then
    let dfs := read_csv_files env csvDir
    if dfs.isEmpty then
      { success := false, totalRecords := 0, disconnectCalled := true, indexes := [] }
    else
      match loadLoop env bs dfs 0 0 with
      | Except.error _ =>
        { success := false, totalRecords := 0, disconnectCalled := true, indexes := [] }
      | Except.ok total =>
        { success := true, totalRecords := total, disconnectCalled := true,
          indexes := create_indexes env.idx }
  else
    { success := false, totalRecords := 0, disconnectCalled := false, indexes := [] }

/-- No sampling call and no `create_index` call raises. -/
def NoIndexRaise (env : IndexEnv) : Prop :=
  (∀ k, env.findRaises k = false) ∧ (∀ f, env.createRaises f = false)

/-- An `IndexEnv` whose three sampling calls return three documents
with different key sets. -/
def c9Env : IndexEnv where
  sample := fun k => if k = 0 then ["Open time"] else if k = 1 then ["Close time"] else []
  findRaises := fun _ => false
  createRaises := fun _ => false

/-- A quiescent index environment (empty collection, nothing raises). -/
def baseIdxEnv : IndexEnv where
  sample := fun _ => []
  findRaises := fun _ => false
  createRaises := fun _ => false

/-- A minimal load environment: connection succeeds, empty directory. -/
def baseEnv : LoadEnv where
  connectOk := true
  listing := Except.ok []
  parse := fun _ => Except.error ()
  nowAt := fun _ => 0
  insertAt := fun _ => InsertOutcome.ok 0
  idx := baseIdxEnv

/-- A load environment whose every insertion reports a partial
bulk-write failure with two per-document errors. -/
def w2Env : LoadEnv where
  connectOk := true
  listing := Except.ok []
  parse := fun _ => Except.error ()
  nowAt := fun _ => 0
  insertAt := fun _ => InsertOutcome.bulkWriteError 2
  idx := baseIdxEnv

/-- A load environment with one parsable file `d/a.csv` of two rows. -/
def w10Env : LoadEnv where
  connectOk := true
  listing := Except.ok ["a.csv"]
  parse := fun p =>
    if p = "d/a.csv" then Except.ok [[("Open", PyVal.num 1)], []] else Except.error ()
  nowAt := fun _ => 5
  insertAt := fun _ => InsertOutcome.ok 0
  idx := baseIdxEnv

theorem getField_setField_self (r : Record) (f : String) (v w : PyVal)
    (h : getField r f = some w) : getField (setField r f v) f = some v := by
  induction r with
  | nil => simp [getField] at h
  | cons p r ih =>
    obtain ⟨g, u⟩ := p
    by_cases hg : g = f
    · subst hg; simp [getField, setField]
    · simp only [getField, setField, if_neg hg] at h ⊢
      exact ih h

theorem getField_setField_ne (r : Record) (f g : String) (v : PyVal)
    (h : f ≠ g) : getField (setField r g v) f = getField r f := by
  induction r with
  | nil => rfl
  | cons p r ih =>
    obtain ⟨k, u⟩ := p
    show getField (if k = g then (g, v) :: setField r g v else (k, u) :: setField r g v) f
        = if k = f then some u else getField r f
    by_cases hk : k = g
    · rw [if_pos hk]
      show (if g = f then some v else getField (setField r g v) f)
          = if k = f then some u else getField r f
      rw [if_neg (fun hc => h hc.symm), if_neg (fun hc : k = f => h (hc ▸ hk)), ih]
    · rw [if_neg hk]
      show (if k = f then some u else getField (setField r g v) f)
          = if k = f then some u else getField r f
      by_cases hkf : k = f
      · rw [if_pos hkf, if_pos hkf]
      · rw [if_neg hkf, if_neg hkf, ih]

theorem getField_append_of_some (r s : Record) (f : String) (v : PyVal)
    (h : getField r f = some v) : getField (r ++ s) f = some v := by
  induction r with
  | nil => simp [getField] at h
  | cons p r ih =>
    obtain ⟨g, u⟩ := p
    by_cases hg : g = f
    · subst hg; simp only [getField, if_pos rfl] at h ⊢; exact h
    · simp only [List.cons_append, getField, if_neg hg] at h ⊢; exact ih h

theorem getField_append_of_none (r s : Record) (f : String)
    (h : getField r f = Option.none) : getField (r ++ s) f = getField s f := by
  induction r with
  | nil => rfl
  | cons p r ih =>
    obtain ⟨g, u⟩ := p
    by_cases hg : g = f
    · subst hg; simp [getField] at h
    · simp only [getField, if_neg hg] at h
      simp only [List.cons_append, getField, if_neg hg]
      exact ih h

theorem getField_setCol_self (r : Record) (f : String) (v : PyVal) :
    getField (setCol r f v) f = some v := by
  unfold setCol
  cases hr : getField r f with
  | none =>
    simp only [hr, Option.isSome_none, Bool.false_eq_true, if_false]
    rw [getField_append_of_none r _ f hr]
    simp [getField]
  | some w =>
    simp only [hr, Option.isSome_some, if_true]
    exact getField_setField_self r f v w hr

theorem getField_setCol_ne (r : Record) (f g : String) (v : PyVal)
    (h : f ≠ g) : getField (setCol r g v) f = getField r f := by
  unfold setCol
  cases hr : getField r g with
  | none =>
    simp only [hr, Option.isSome_none, Bool.false_eq_true, if_false]
    cases hf : getField r f with
    | none =>
      rw [getField_append_of_none r _ f hf]
      show (if g = f then some v else getField [] f) = Option.none
      rw [if_neg (fun hc => h hc.symm)]
      rfl
    | some w => exact getField_append_of_some r _ f w hf
  | some w =>
    simp only [hr, Option.isSome_some, if_true]
    exact getField_setField_ne r f g v h

theorem pyFloat_error (v : PyVal) (e : PyExc) (h : pyFloat v = Except.error e) :
    e = PyExc.valueError ∨ e = PyExc.typeError := by
  cases v with
  | str s =>
    rw [pyFloat] at h
    cases hp : pyParseFloat s with
    | some w => rw [hp] at h; cases h
    | none => rw [hp] at h; cases h; exact Or.inl rfl
  | num q => cases h
  | inf b => cases h
  | nan => cases h
  | int n => cases h
  | timestamp t => cases h; exact Or.inr rfl
  | none => cases h; exact Or.inr rfl

theorem pyInt_error (v : PyVal) (e : PyExc) (h : pyInt v = Except.error e) :
    e ≠ PyExc.otherError := by
  cases v with
  | str s =>
    rw [pyInt] at h
    cases hp : pyParseInt s with
    | some w => rw [hp] at h; cases h
    | none => rw [hp] at h; cases h; simp
  | num q => cases h
  | inf b => cases h; simp
  | nan => cases h; simp
  | int n => cases h
  | timestamp t => cases h; simp
  | none => cases h; simp

theorem coerce_numeric_field_ok (r : Record) (f : String) :
    ∃ r', coerce_numeric_field r f = Except.ok r' := by
  unfold coerce_numeric_field
  cases hv : getField r f with
  | none => exact ⟨r, rfl⟩
  | some v =>
    dsimp only
    by_cases hna : pd_notna v = true
    · rw [if_pos hna]
      cases hp : pyFloat v with
      | ok w => exact ⟨setField r f w, rfl⟩
      | error e =>
        rcases pyFloat_error v e hp with he | he <;> subst he <;>
          exact ⟨setField r f PyVal.none, rfl⟩
    · rw [if_neg hna]
      exact ⟨r, rfl⟩

theorem coerce_numeric_field_preserve (r r' : Record) (f g : String)
    (hfg : f ≠ g) (h : coerce_numeric_field r g = Except.ok r') :
    getField r' f = getField r f := by
  unfold coerce_numeric_field at h
  cases hv : getField r g with
  | none => rw [hv] at h; cases h; rfl
  | some v =>
    rw [hv] at h
    dsimp only at h
    by_cases hna : pd_notna v = true
    · rw [if_pos hna] at h
      cases hp : pyFloat v with
      | ok w => rw [hp] at h; cases h; exact getField_setField_ne r f g w hfg
      | error e =>
        rcases pyFloat_error v e hp with he | he <;> subst he <;> rw [hp] at h <;>
          (cases h; exact getField_setField_ne r f g PyVal.none hfg)
    · rw [if_neg hna] at h; cases h; rfl

theorem coerce_numeric_field_fail (r : Record) (f : String) (v : PyVal) (e : PyExc)
    (hv : getField r f = some v) (hna : pd_notna v = true)
    (hp : pyFloat v = Except.error e) :
    coerce_numeric_field r f = Except.ok (setField r f PyVal.none) := by
  unfold coerce_numeric_field
  rw [hv]
  dsimp only
  rw [if_pos hna]
  rcases pyFloat_error v e hp with he | he <;> subst he <;> rw [hp]

theorem coerceLoop_ok (L : List String) (r : Record) :
    ∃ r', coerceLoop L r = Except.ok r' := by
  induction L generalizing r with
  | nil => exact ⟨r, rfl⟩
  | cons f fs ih =>
    obtain ⟨r1, h1⟩ := coerce_numeric_field_ok r f
    obtain ⟨r2, h2⟩ := ih r1
    refine ⟨r2, ?_⟩
    show (match coerce_numeric_field r f with
      | Except.ok r' => coerceLoop fs r'
      | Except.error e => Except.error e) = Except.ok r2
    rw [h1]
    exact h2

theorem coerceLoop_preserve (L : List String) (f : String) (r r' : Record)
    (hni : f ∉ L) (h : coerceLoop L r = Except.ok r') :
    getField r' f = getField r f := by
  induction L generalizing r with
  | nil => cases h; rfl
  | cons g fs ih =>
    have hfg : f ≠ g := fun hc => hni (hc ▸ List.mem_cons_self g fs)
    have hfs : f ∉ fs := fun hc => hni (List.mem_cons_of_mem g hc)
    change (match coerce_numeric_field r g with
      | Except.ok r1 => coerceLoop fs r1
      | Except.error e => Except.error e) = Except.ok r' at h
    cases hc : coerce_numeric_field r g with
    | error e => rw [hc] at h; cases h
    | ok r1 =>
      rw [hc] at h
      rw [ih r1 hfs h]
      exact coerce_numeric_field_preserve r r1 f g hfg hc

theorem coerceLoop_none_stable (L : List String) (f : String) (r r' : Record)
    (hv : getField r f = some PyVal.none) (h : coerceLoop L r = Except.ok r') :
    getField r' f = some PyVal.none := by
  induction L generalizing r with
  | nil => cases h; exact hv
  | cons g fs ih =>
    change (match coerce_numeric_field r g with
      | Except.ok r1 => coerceLoop fs r1
      | Except.error e => Except.error e) = Except.ok r' at h
    by_cases hg : g = f
    · subst hg
      have hstep : coerce_numeric_field r g = Except.ok r := by
        unfold coerce_numeric_field
        rw [hv]
        rfl
      rw [hstep] at h
      exact ih r hv h
    · cases hc : coerce_numeric_field r g with
      | error e => rw [hc] at h; cases h
      | ok r1 =>
        rw [hc] at h
        have hp := coerce_numeric_field_preserve r r1 f g (fun hc' => hg hc'.symm) hc
        exact ih r1 (hp.trans hv) h

theorem coerceLoop_sets_none (L : List String) (f : String) (r : Record)
    (v : PyVal) (e : PyExc) (hmem : f ∈ L) (hv : getField r f = some v)
    (hna : pd_notna v = true) (hp : pyFloat v = Except.error e) :
    ∃ r', coerceLoop L r = Except.ok r' ∧ getField r' f = some PyVal.none := by
  induction L generalizing r with
  | nil => cases hmem
  | cons g fs ih =>
    by_cases hg : g = f
    · subst hg
      have hstep := coerce_numeric_field_fail r g v e hv hna hp
      obtain ⟨r2, h2⟩ := coerceLoop_ok fs (setField r g PyVal.none)
      refine ⟨r2, ?_, ?_⟩
      · show (match coerce_numeric_field r g with
          | Except.ok r' => coerceLoop fs r'
          | Except.error e => Except.error e) = Except.ok r2
        rw [hstep]
        exact h2
      · have hnone : getField (setField r g PyVal.none) g = some PyVal.none :=
          getField_setField_self r g PyVal.none v hv
        exact coerceLoop_none_stable fs g _ r2 hnone h2
    · have hmem' : f ∈ fs := by
        rcases List.mem_cons.mp hmem with hcon | hcon
        · exact absurd hcon.symm hg
        · exact hcon
      obtain ⟨r1, h1⟩ := coerce_numeric_field_ok r g
      have hpres := coerce_numeric_field_preserve r r1 f g (fun hc => hg hc.symm) h1
      obtain ⟨r', hr', hf⟩ := ih r1 hmem' (hpres.trans hv)
      refine ⟨r', ?_, hf⟩
      show (match coerce_numeric_field r g with
        | Except.ok r2 => coerceLoop fs r2
        | Except.error e => Except.error e) = Except.ok r'
      rw [h1]
      exact hr'

theorem trades_to_int_num (r : Record) (q : ℚ)
    (h : getField r "Number of trades" = some (PyVal.num q)) :
    trades_to_int r = Except.ok (setField r "Number of trades" (PyVal.int (ratTrunc q))) := by
  unfold trades_to_int
  rw [h]
  rfl

theorem trades_to_int_inf (r : Record) (b : Bool)
    (h : getField r "Number of trades" = some (PyVal.inf b)) :
    trades_to_int r = Except.error PyExc.overflowError := by
  unfold trades_to_int
  rw [h]
  rfl

theorem trades_to_int_nan (r : Record)
    (h : getField r "Number of trades" = some PyVal.nan) :
    trades_to_int r = Except.ok r := by
  unfold trades_to_int
  rw [h]
  rfl

theorem trades_to_int_none_stable (r : Record)
    (h : getField r "Number of trades" = some PyVal.none) :
    trades_to_int r = Except.ok r := by
  unfold trades_to_int
  rw [h]
  rfl

theorem trades_to_int_preserve (r r' : Record) (f : String)
    (hf : f ≠ "Number of trades") (h : trades_to_int r = Except.ok r') :
    getField r' f = getField r f := by
  unfold trades_to_int at h
  cases hv : getField r "Number of trades" with
  | none => rw [hv] at h; cases h; rfl
  | some v =>
    rw [hv] at h
    dsimp only at h
    by_cases hna : pd_notna v = true
    · rw [if_pos hna] at h
      cases hp : pyInt v with
      | ok w =>
        rw [hp] at h; cases h
        exact getField_setField_ne r f "Number of trades" w hf
      | error e =>
        cases e with
        | valueError =>
          rw [hp] at h; cases h
          exact getField_setField_ne r f "Number of trades" PyVal.none hf
        | typeError =>
          rw [hp] at h; cases h
          exact getField_setField_ne r f "Number of trades" PyVal.none hf
        | overflowError => rw [hp] at h; cases h
        | otherError => rw [hp] at h; cases h
    · rw [if_neg hna] at h; cases h; rfl

theorem trades_to_int_error (r : Record) (e : PyExc)
    (h : trades_to_int r = Except.error e) : e = PyExc.overflowError := by
  unfold trades_to_int at h
  cases hv : getField r "Number of trades" with
  | none => rw [hv] at h; cases h
  | some v =>
    rw [hv] at h
    dsimp only at h
    by_cases hna : pd_notna v = true
    · rw [if_pos hna] at h
      cases hp : pyInt v with
      | ok w => rw [hp] at h; cases h
      | error e' =>
        cases e' with
        | valueError => rw [hp] at h; cases h
        | typeError => rw [hp] at h; cases h
        | overflowError => rw [hp] at h; cases h; rfl
        | otherError => exact absurd rfl (pyInt_error v PyExc.otherError hp)
    · rw [if_neg hna] at h; cases h

theorem coerceRecord_error (r : Record) (e : PyExc)
    (h : coerceRecord r = Except.error e) : e = PyExc.overflowError := by
  unfold coerceRecord at h
  obtain ⟨r1, h1⟩ := coerceLoop_ok numeric_fields r
  rw [h1] at h
  exact trades_to_int_error r1 e h

theorem prepareLoop_error (records : List Record) (e : PyExc)
    (h : prepareLoop records = Except.error e) : e = PyExc.overflowError := by
  induction records with
  | nil => cases h
  | cons r rs ih =>
    unfold prepareLoop at h
    cases hc : coerceRecord r with
    | error e' => rw [hc] at h; cases h; exact coerceRecord_error r e hc
    | ok r' =>
      rw [hc] at h
      cases hp : prepareLoop rs with
      | error e' => rw [hp] at h; cases h; exact ih hp
      | ok rs' => rw [hp] at h; cases h

theorem prepareLoop_length (records out : List Record)
    (h : prepareLoop records = Except.ok out) : out.length = records.length := by
  induction records generalizing out with
  | nil => cases h; rfl
  | cons r rs ih =>
    unfold prepareLoop at h
    cases hc : coerceRecord r with
    | error e => rw [hc] at h; cases h
    | ok r' =>
      rw [hc] at h
      cases hp : prepareLoop rs with
      | error e => rw [hp] at h; cases h
      | ok rs' =>
        rw [hp] at h
        cases h
        simp [ih rs' hp]

theorem chunksGo_nil_eq (bs fuel : ℕ) : chunksGo bs fuel [] = [] := by
  cases fuel <;> rfl

theorem chunksGo_fuel_irrel (bs : ℕ) (hb : bs ≠ 0) :
    ∀ (f1 f2 : ℕ) (l : List Record), l.length ≤ f1 → l.length ≤ f2 →
      chunksGo bs f1 l = chunksGo bs f2 l := by
  intro f1
  induction f1 with
  | zero =>
    intro f2 l h1 _
    have hl : l = [] := List.eq_nil_of_length_eq_zero (Nat.le_zero.mp h1)
    subst hl
    rw [chunksGo_nil_eq, chunksGo_nil_eq]
  | succ f ih =>
    intro f2 l h1 h2
    cases l with
    | nil => rw [chunksGo_nil_eq, chunksGo_nil_eq]
    | cons x xs =>
      cases f2 with
      | zero => simp at h2
      | succ g =>
        show (x :: xs).take bs :: chunksGo bs f ((x :: xs).drop bs)
            = (x :: xs).take bs :: chunksGo bs g ((x :: xs).drop bs)
        have hpos : 0 < bs := Nat.pos_of_ne_zero hb
        have hd : ((x :: xs).drop bs).length = xs.length + 1 - bs := by
          simp [List.length_drop]
        congr 1
        apply ih
        · rw [hd]; simp at h1; omega
        · rw [hd]; simp at h2; omega

theorem chunks_cons_eq (bs : ℕ) (hb : bs ≠ 0) (l : List Record) (hl : l ≠ []) :
    chunks bs l = l.take bs :: chunks bs (l.drop bs) := by
  cases l with
  | nil => exact absurd rfl hl
  | cons x xs =>
    show chunksGo bs (xs.length + 1) (x :: xs)
        = (x :: xs).take bs :: chunks bs ((x :: xs).drop bs)
    rw [show chunksGo bs (xs.length + 1) (x :: xs)
        = (x :: xs).take bs :: chunksGo bs xs.length ((x :: xs).drop bs) from rfl]
    congr 1
    apply chunksGo_fuel_irrel bs hb
    · have hpos : 0 < bs := Nat.pos_of_ne_zero hb
      simp [List.length_drop]
      omega
    · exact le_refl _

theorem chunks_join (bs : ℕ) (hb : bs ≠ 0) (l : List Record) :
    (chunks bs l).flatten = l := by
  match l with
  | [] => rfl
  | x :: xs =>
    rw [chunks_cons_eq bs hb (x :: xs) (by simp), List.flatten_cons,
      chunks_join bs hb ((x :: xs).drop bs)]
    exact List.take_append_drop bs (x :: xs)
termination_by l.length
decreasing_by
  have hpos : 0 < bs := Nat.pos_of_ne_zero hb
  simp [List.length_drop]
  omega

theorem chunks_mem_bounds (bs : ℕ) (hb : bs ≠ 0) (l : List Record)
    (b : List Record) (hm : b ∈ chunks bs l) :
    1 ≤ b.length ∧ b.length ≤ bs := by
  match l with
  | [] =>
    rw [show chunks bs [] = [] from rfl] at hm
    cases hm
  | x :: xs =>
    rw [chunks_cons_eq bs hb (x :: xs) (by simp)] at hm
    rcases List.mem_cons.mp hm with h | h
    · subst h
      have hpos : 0 < bs := Nat.pos_of_ne_zero hb
      constructor
      · simp [List.length_take]
        omega
      · simp [List.length_take]
    · exact chunks_mem_bounds bs hb ((x :: xs).drop bs) b h
termination_by l.length
decreasing_by
  have hpos : 0 < bs := Nat.pos_of_ne_zero hb
  simp [List.length_drop]
  omega

theorem collectCsvFiles_foldl (csvDir : String) (listing : List String)
    (acc : List String) :
    listing.foldl
      (fun a file => if endswith file ".csv" then a ++ [path_join csvDir file] else a) acc
      = acc ++ (listing.filter (fun f => endswith f ".csv")).map (path_join csvDir) := by
  induction listing generalizing acc with
  | nil => simp
  | cons x xs ih =>
    by_cases hx : endswith x ".csv" = true <;>
      simp [List.foldl_cons, hx, ih, List.filter_cons]

theorem stamp_record_import (path : String) (t : ℤ) (r : Record) :
    getField (stamp_record path t r) "import_timestamp" = some (PyVal.timestamp t) :=
  getField_setCol_self _ _ _

theorem stamp_record_source (path : String) (t : ℤ) (r : Record) :
    getField (stamp_record path t r) "source_file" = some (PyVal.str (basename path)) := by
  unfold stamp_record
  rw [getField_setCol_ne _ "source_file" "import_timestamp" _ (by decide)]
  exact getField_setCol_self _ _ _

theorem read_loop_provenance (env : LoadEnv) (paths : List String) (k : ℕ)
    (df : List Record) (hdf : df ∈ read_loop env paths k) :
    ∃ path t, ∀ r ∈ df,
      getField r "source_file" = some (PyVal.str (basename path)) ∧
      getField r "import_timestamp" = some (PyVal.timestamp t) := by
  induction paths generalizing k with
  | nil => cases hdf
  | cons p ps ih =>
    unfold read_loop at hdf
    cases hp : env.parse p with
    | error u =>
      rw [hp] at hdf
      exact ih k hdf
    | ok rows =>
      rw [hp] at hdf
      rcases List.mem_cons.mp hdf with h | h
      · subst h
        refine ⟨p, env.nowAt k, fun r hr => ?_⟩
        obtain ⟨r0, _, rfl⟩ := List.mem_map.mp hr
        exact ⟨stamp_record_source p (env.nowAt k) r0,
          stamp_record_import p (env.nowAt k) r0⟩
      · exact ih (k + 1) h

theorem create_indexes_go_noraise (env : IndexEnv) (h : NoIndexRaise env) :
    ∀ (L : List (ℕ × String)) (created : List String),
      create_indexes_go env L created
        = created ++ (L.filter (fun p => decide (p.2 ∈ env.sample p.1))).map Prod.snd := by
  intro L
  induction L with
  | nil => intro created; simp [create_indexes_go]
  | cons p rest ih =>
    intro created
    obtain ⟨k, f⟩ := p
    rw [create_indexes_go]
    rw [if_neg (by rw [h.1 k]; simp)]
    by_cases hmem : f ∈ env.sample k
    · rw [if_pos hmem, if_neg (by rw [h.2 f]; simp), ih]
      simp [List.filter_cons, hmem]
    · rw [if_neg hmem, ih]
      simp [List.filter_cons, hmem]

theorem create_indexes_go_sublist (env : IndexEnv) :
    ∀ (L : List (ℕ × String)) (created : List String),
      ∃ s, create_indexes_go env L created = created ++ s ∧
        s.Sublist (L.map Prod.snd) := by
  intro L
  induction L with
  | nil => intro created; exact ⟨[], by simp [create_indexes_go], List.nil_sublist _⟩
  | cons p rest ih =>
    intro created
    obtain ⟨k, f⟩ := p
    by_cases hf : env.findRaises k = true
    · exact ⟨[], by rw [create_indexes_go, if_pos hf]; simp, List.nil_sublist _⟩
    · by_cases hmem : f ∈ env.sample k
      · by_cases hc : env.createRaises f = true
        · refine ⟨[], ?_, List.nil_sublist _⟩
          rw [create_indexes_go, if_neg hf, if_pos hmem, if_pos hc]
          simp
        · obtain ⟨s, hs, hsub⟩ := ih (created ++ [f])
          refine ⟨f :: s, ?_, ?_⟩
          · rw [create_indexes_go, if_neg hf, if_pos hmem, if_neg hc, hs]
            simp
          · exact List.Sublist.cons₂ f hsub
      · obtain ⟨s, hs, hsub⟩ := ih created
        refine ⟨s, ?_, ?_⟩
        · rw [create_indexes_go, if_neg hf, if_neg hmem, hs]
        · exact List.Sublist.cons f hsub

/-- C1: for every run, `load_data_to_mongodb` returns `success = false`
exactly when the connection attempt fails, when the list of successfully
parsed dataframes is empty, or when an exception escapes the load loop.
Partial per-batch bulk-write failures do not appear on the right-hand
side: `insertLoop` absorbs `InsertOutcome.bulkWriteError` without
raising, so they alone never make the result false. -/
theorem C1_success_iff (env : LoadEnv) (csvDir : String) (bs : ℕ) :
    (load_data_to_mongodb env csvDir bs).success = false ↔
      (env.connectOk = false ∨ read_csv_files env csvDir = [] ∨
        ∃ e, loadLoop env bs (read_csv_files env csvDir) 0 0 = Except.error e) := by
  unfold load_data_to_mongodb
  cases hc : env.connectOk with
  | false => simp
  | true =>
    cases hdfs : read_csv_files env csvDir with
    | nil => simp [hdfs]
    | cons d ds =>
      cases hl : loadLoop env bs (d :: ds) 0 0 with
      | error e => simp [hdfs, hl]
      | ok t => simp [hdfs, hl]

/-- C2: a batch whose insertion reports a partial bulk-write failure
with `e` per-document write errors adds exactly `len(batch) - e` to the
running total, and the loop proceeds to the remaining batches. -/
theorem C2_bulk_write_accumulation (env : LoadEnv) (ins e : ℕ) (b : List Record)
    (rest : List (List Record)) (total : ℤ)
    (h : env.insertAt ins = InsertOutcome.bulkWriteError e) :
    insertLoop env ins (b :: rest) total
      = insertLoop env (ins + 1) rest (total + ((b.length : ℤ) - (e : ℤ))) := by
  conv_lhs => rw [insertLoop]
  rw [h]

theorem C2_witness :
    insertLoop w2Env 0 [[[], [], []]] 10
      = insertLoop w2Env 1 [] (10 + ((([[], [], []] : List Record).length : ℤ) - ((2 : ℕ) : ℤ))) :=
  C2_bulk_write_accumulation w2Env 0 2 [[], [], []] [] 10 rfl

/-- C3: whenever `prepare_data_for_mongodb` returns a record list, it
holds exactly one record per input row; no row is dropped for failing
coercion. -/
theorem C3_row_count_preserved (records out : List Record)
    (h : prepare_data_for_mongodb records = Except.ok out) :
    out.length = records.length :=
  prepareLoop_length records out h

theorem C3_witness :
    ([[("Open", PyVal.none)]] : List Record).length
      = ([[("Open", PyVal.str "x")]] : List Record).length :=
  C3_row_count_preserved [[("Open", PyVal.str "x")]] [[("Open", PyVal.none)]] (by decide)

/-- C4 counterexample: an infinite `Number of trades` value coerces to a
float successfully, and the secondary `int` coercion then raises an
`OverflowError` that is not among the caught classes
`(ValueError, TypeError)`, so an exception escapes
`prepare_data_for_mongodb` — refuting the claim that no exception of any
kind escapes for any input value. -/
theorem C4_counterexample :
    prepare_data_for_mongodb [[("Number of trades", PyVal.inf true)]]
      = Except.error PyExc.overflowError := by decide

/-- C4 amended: the primary float-coercion loop never raises (its
`ValueError`/`TypeError` are always caught); a numeric field whose
value is present, non-NA and fails `float` coercion is `None` in every
successful result of the per-record body; and the only exception that
can escape `prepare_data_for_mongodb` is the `OverflowError` of the
secondary integer coercion on an infinite `Number of trades`. -/
theorem C4_coercion_failure_handling :
    (∀ r : Record, ∃ r1, coerceLoop numeric_fields r = Except.ok r1) ∧
    (∀ (r : Record) (f : String) (v : PyVal) (e : PyExc) (r' : Record),
      f ∈ numeric_fields → getField r f = some v → pd_notna v = true →
      pyFloat v = Except.error e → coerceRecord r = Except.ok r' →
      getField r' f = some PyVal.none) ∧
    (∀ (records : List Record) (e : PyExc),
      prepare_data_for_mongodb records = Except.error e →
      e = PyExc.overflowError) := by
  refine ⟨fun r => coerceLoop_ok numeric_fields r, ?_, ?_⟩
  · intro r f v e r' hmem hv hna hp hrec
    unfold coerceRecord at hrec
    obtain ⟨r1, h1, hf1⟩ := coerceLoop_sets_none numeric_fields f r v e hmem hv hna hp
    rw [h1] at hrec
    dsimp only at hrec
    by_cases hft : f = "Number of trades"
    · subst hft
      rw [trades_to_int_none_stable r1 hf1] at hrec
      cases hrec
      exact hf1
    · rw [trades_to_int_preserve r1 r' f hft hrec]
      exact hf1
  · exact fun records e h => prepareLoop_error records e h

theorem C4_witness :
    (∃ r1, coerceLoop numeric_fields [("Open", PyVal.str "abc")] = Except.ok r1) ∧
    getField [("Open", PyVal.none)] "Open" = some PyVal.none ∧
    PyExc.overflowError = PyExc.overflowError :=
  ⟨C4_coercion_failure_handling.1 [("Open", PyVal.str "abc")],
   C4_coercion_failure_handling.2.1 [("Open", PyVal.str "abc")] "Open"
     (PyVal.str "abc") PyExc.valueError [("Open", PyVal.none)]
     (by decide) (by decide) (by decide) (by decide) (by decide),
   C4_coercion_failure_handling.2.2 [[("Number of trades", PyVal.inf false)]]
     PyExc.overflowError (by decide)⟩

/-- C5 counterexample: the string `"nan"` coerces successfully to the
float NaN, the `pd.notna` guard then skips the secondary integer
coercion, and normalization returns with `Number of trades` still
holding a float value — refuting both "a secondary integer coercion is
attempted" and "the field is never left holding a float value". -/
theorem C5_counterexample :
    prepare_data_for_mongodb [[("Number of trades", PyVal.str "nan")]]
      = Except.ok [[("Number of trades", PyVal.nan)]] ∧
    isFloatValue PyVal.nan = true := by decide

/-- C5 amended: after the primary coercion, a finite float
`Number of trades` is truncated to an integer by the secondary
coercion (which can never fail with a caught class on a float, so the
null branch is unreachable there); an infinite float makes the
secondary coercion raise an uncaught `OverflowError`; and a NaN float
skips the secondary coercion entirely, leaving the float in place. -/
theorem C5_trades_secondary_coercion :
    (∀ (r : Record) (q : ℚ), getField r "Number of trades" = some (PyVal.num q) →
      trades_to_int r
        = Except.ok (setField r "Number of trades" (PyVal.int (ratTrunc q)))) ∧
    (∀ (r : Record) (b : Bool), getField r "Number of trades" = some (PyVal.inf b) →
      trades_to_int r = Except.error PyExc.overflowError) ∧
    (∀ r : Record, getField r "Number of trades" = some PyVal.nan →
      trades_to_int r = Except.ok r) :=
  ⟨trades_to_int_num, trades_to_int_inf, trades_to_int_nan⟩

theorem C5_witness :
    trades_to_int [("Number of trades", PyVal.num 7)]
      = Except.ok (setField [("Number of trades", PyVal.num 7)] "Number of trades"
          (PyVal.int (ratTrunc 7))) ∧
    trades_to_int [("Number of trades", PyVal.inf true)]
      = Except.error PyExc.overflowError ∧
    trades_to_int [("Number of trades", PyVal.nan)]
      = Except.ok [("Number of trades", PyVal.nan)] :=
  ⟨C5_trades_secondary_coercion.1 _ 7 (by decide),
   C5_trades_secondary_coercion.2.1 _ true (by decide),
   C5_trades_secondary_coercion.2.2 _ (by decide)⟩

/-- C6 counterexample: `read_csv_files` walks `os.listdir` output in
the order the operating system returns it and never sorts; for the
listing `["b.csv", "a.csv"]` the discovered paths come out in that
order, which is not sorted by file name — refuting the claim that the
returned sequence is sorted. -/
theorem C6_counterexample :
    collectCsvFiles "d" ["b.csv", "a.csv"] = ["d/b.csv", "d/a.csv"] ∧
    ¬ List.Sorted (fun a b : String => a ≤ b) (collectCsvFiles "d" ["b.csv", "a.csv"]) := by
  refine ⟨by decide, ?_⟩
  intro h
  rw [show collectCsvFiles "d" ["b.csv", "a.csv"] = ["d/b.csv", "d/a.csv"] from by decide] at h
  have h1 : ("d/b.csv" : String) ≤ "d/a.csv" :=
    List.rel_of_sorted_cons h "d/a.csv" (by simp)
  have h2 : ("d/a.csv" : String) < "d/b.csv" := by
    rw [String.lt_iff_toList_lt]
    decide
  exact absurd h1 (not_le.mpr h2)

/-- C6 amended: file discovery returns exactly the directory-joined
paths of the listing entries whose name ends in `.csv`, in the order of
the directory listing (which the code does not sort). -/
theorem C6_discovery_filter (csvDir : String) (listing : List String) :
    collectCsvFiles csvDir listing
      = (listing.filter (fun f => endswith f ".csv")).map (path_join csvDir) := by
  unfold collectCsvFiles
  rw [collectCsvFiles_foldl]
  rw [List.nil_append]

/-- C7: for a positive batch size, every batch handed to `insert_many`
by the load loop (the elements of `chunks bs records`, which is what
`loadLoop` passes to `insertLoop`) has between 1 and `bs` records, and
the batches concatenate back to the full record list in order. -/
theorem C7_batch_invariant (bs : ℕ) (records : List Record)
    (h1 : 1 ≤ bs) (_h2 : records ≠ []) :
    (∀ b ∈ chunks bs records, 1 ≤ b.length ∧ b.length ≤ bs) ∧
    (chunks bs records).flatten = records := by
  have hb : bs ≠ 0 := by omega
  exact ⟨fun b hb' => chunks_mem_bounds bs hb records b hb', chunks_join bs hb records⟩

theorem C7_witness :
    (∀ b ∈ chunks 2 [[], [], []], 1 ≤ b.length ∧ b.length ≤ 2) ∧
    (chunks 2 [[], [], []]).flatten = [[], [], []] :=
  C7_batch_invariant 2 [[], [], []] (by decide) (by decide)

/-- C8: on every run in which the connection attempt succeeds,
`disconnect()` runs before `load_data_to_mongodb` returns, on every
exit path — load completed, failure returned, or exception raised
inside the `try` (all caught by the `except`/`finally`). -/
theorem C8_disconnect_on_every_path (env : LoadEnv) (csvDir : String) (bs : ℕ)
    (h : env.connectOk = true) :
    (load_data_to_mongodb env csvDir bs).disconnectCalled = true := by
  unfold load_data_to_mongodb
  rw [h]
  cases hdfs : read_csv_files env csvDir with
  | nil => simp [hdfs]
  | cons d ds =>
    cases hl : loadLoop env bs (d :: ds) 0 0 with
    | error e => simp [hdfs, hl]
    | ok t => simp [hdfs, hl]

theorem C8_witness : (load_data_to_mongodb baseEnv "data" 1000).disconnectCalled = true :=
  C8_disconnect_on_every_path baseEnv "data" 1000 rfl

/-- C9 counterexample: `create_indexes` issues a fresh
`next(collection.find().limit(1), {})` query for each of the three
fields rather than reusing one sampled document; when the store returns
documents with different key sets for the successive calls, the code
creates an index on `Close time` although that field is absent from
the first sampled document, diverging from the spec's single-sample
procedure. -/
theorem C9_counterexample :
    create_indexes c9Env = ["Open time", "Close time"] ∧
    create_indexes_spec c9Env = ["Open time"] ∧
    create_indexes c9Env ≠ create_indexes_spec c9Env := by
  refine ⟨?_, ?_, ?_⟩ <;> decide

/-- C9 amended: index provisioning performs one separate sampling call
per recognized field and creates an ascending index on each field
present in the corresponding call's document; when nothing raises, the
created indexes are exactly the per-call filter of the three fields,
and in every environment (including raising ones) the procedure
returns — errors are caught, never propagated — with the created
indexes a prefix-respecting selection of the three recognized
fields. -/
theorem C9_per_call_sampling :
    (∀ env : IndexEnv, NoIndexRaise env →
      create_indexes env
        = (index_fields.filter (fun p => decide (p.2 ∈ env.sample p.1))).map Prod.snd) ∧
    (∀ env : IndexEnv, (create_indexes env).Sublist (index_fields.map Prod.snd)) := by
  constructor
  · intro env h
    unfold create_indexes
    rw [create_indexes_go_noraise env h index_fields []]
    rw [List.nil_append]
  · intro env
    obtain ⟨s, hs, hsub⟩ := create_indexes_go_sublist env index_fields []
    unfold create_indexes
    rw [hs, List.nil_append]
    exact hsub

theorem C9_witness :
    (create_indexes c9Env
      = (index_fields.filter (fun p => decide (p.2 ∈ c9Env.sample p.1))).map Prod.snd) ∧
    (create_indexes c9Env).Sublist (index_fields.map Prod.snd) :=
  ⟨C9_per_call_sampling.1 c9Env ⟨fun _ => rfl, fun _ => rfl⟩,
   C9_per_call_sampling.2 c9Env⟩

/-- C10: every dataframe returned by `read_csv_files` carries uniform
provenance: there is a single source path and a single timestamp (the
one `datetime.now()` call made for that file) such that every record of
the dataframe has `source_file` equal to the path's base name and
`import_timestamp` equal to that timestamp. -/
theorem C10_provenance_uniform (env : LoadEnv) (csvDir : String)
    (df : List Record) (hdf : df ∈ read_csv_files env csvDir) :
    ∃ path t, ∀ r ∈ df,
      getField r "source_file" = some (PyVal.str (basename path)) ∧
      getField r "import_timestamp" = some (PyVal.timestamp t) := by
  unfold read_csv_files at hdf
  cases hL : env.listing with
  | error u => rw [hL] at hdf; cases hdf
  | ok files =>
    rw [hL] at hdf
    exact read_loop_provenance env (collectCsvFiles csvDir files) 0 df hdf

theorem C10_witness :
    ∃ path t, ∀ r ∈ ([[("Open", PyVal.num 1),
        ("source_file", PyVal.str "a.csv"), ("import_timestamp", PyVal.timestamp 5)],
      [("source_file", PyVal.str "a.csv"), ("import_timestamp", PyVal.timestamp 5)]] : List Record),
      getField r "source_file" = some (PyVal.str (basename path)) ∧
      getField r "import_timestamp" = some (PyVal.timestamp t) :=
  C10_provenance_uniform w10Env "d"
    [[("Open", PyVal.num 1),
        ("source_file", PyVal.str "a.csv"), ("import_timestamp", PyVal.timestamp 5)],
      [("source_file", PyVal.str "a.csv"), ("import_timestamp", PyVal.timestamp 5)]]
    (by decide)
